import Mathlib

/-!
Shallow embedding of `pi_append_vec` (src/lib.rs): the hybrid append-only
vector `AppendVec<T>` and the publish-ordered wrapper `SafeVec<T>` with its
deferred-publish handle `Entry`.

The backing segmented store `pi_arr::Arr` is an external leaf dependency
(not part of this repository); it is modelled from the spec's description
of the consumed interface (section 6 of spec.md): an allocate-on-demand
bucket-addressed store pre-filled with null sentinels, with a contiguous
primary region of capacity `vecCap`.

Machine integers (`usize`) are modelled as `Nat`: all the operations in
scope only increment counters, so overflow is out of reach.  Stateful Rust
methods become explicit state passing; `&mut`-writes through returned
references become explicit update functions.  The spin-CAS publish loops
of `SafeVec::insert` and `Drop for Entry` are modelled two ways: a
sequential reduction (`Option`-valued: `none` when the CAS could only be
unblocked by another thread) and, for the concurrency claims, a small-step
transition system `PubStep`/`PubReach` whose single rule is exactly the
successful `compare_exchange(index, index + 1)`.
-/

/-- Modelled from the spec: the external segmented store `pi_arr::Arr`.
`data` is the allocate-on-demand slot content (untouched slots read as the
null sentinel `default`); `vecCap` is the capacity of the contiguous
primary region (`Arr::vec_capacity`). -/
structure Arr (T : Type) where
  data : Nat → T
  vecCap : Nat

/-- Modelled from the spec: `Arr::with_capacity` creates a primary region
of capacity `c`, pre-filled with null sentinels. -/
def Arr.with_capacity {T : Type} [Inhabited T] (c : Nat) : Arr T :=
  ⟨fun _ => default, c⟩

/-- Modelled from the spec: reading a slot (`Arr::get` / `load_alloc`). -/
def Arr.get {T : Type} (a : Arr T) (i : Nat) : Option T :=
  some (a.data i)

/-- Modelled from the spec: writing through a reference obtained from
`Arr::load_alloc` (allocate-on-demand). -/
def Arr.write {T : Type} (a : Arr T) (i : Nat) (x : T) : Arr T :=
  ⟨fun j => if j = i then x else a.data j, a.vecCap⟩

/-- Modelled from the spec: `Arr::slice(start..stop)` yields the slot
contents at indices `start, start+1, …, stop-1` (empty when
`stop ≤ start`). -/
def Arr.slice {T : Type} (a : Arr T) (start stop : Nat) : List T :=
  (List.range' start (stop - start)).map a.data

/-- Modelled from the spec: `Arr::settle(len, additional, 1)` grows the
primary region to absorb all current overflow (`len` live slots) plus
`additional` spare capacity; slot contents are preserved. -/
def Arr.settle {T : Type} (a : Arr T) (len additional : Nat) : Arr T :=
  ⟨a.data, max a.vecCap (len + additional)⟩

/-- Modelled from the spec: `Arr::clear(len, additional, 1)` releases the
overflow buckets and re-primes the primary region to `additional`
pre-nulled slots. -/
def Arr.clear {T : Type} [Inhabited T] (_a : Arr T) (_len additional : Nat) :
    Arr T :=
  ⟨fun _ => default, additional⟩

/-- `AppendVec<T>` (src/lib.rs lines 14-17): one `ShareUsize` field `len`
serving as both length and allocation counter, plus the backing `Arr`. -/
structure AppendVec (T : Type) where
  len : Nat
  arr : Arr T

namespace AppendVec

variable {T : Type} [Inhabited T]

/-- `AppendVec::with_capacity` (lines 31-36). -/
def with_capacity (c : Nat) : AppendVec T :=
  ⟨0, Arr.with_capacity c⟩

/-- `AppendVec::get` (lines 43-48): `None` when `index >= self.len()`,
otherwise reads the slot. -/
def get (v : AppendVec T) (i : Nat) : Option T :=
  if v.len ≤ i then none else v.arr.get i

/-- `AppendVec::get_mut` (lines 54-60): same bound check against `len`;
modelled value-wise like `get`. -/
def get_mut (v : AppendVec T) (i : Nat) : Option T :=
  if v.len ≤ i then none else v.arr.get i

/-- Writing through the reference returned by `get_mut` when it is `Some`
(models `*v.get_mut(i).unwrap() = x`); `none` when `get_mut` is `None`. -/
def set_mut (v : AppendVec T) (i : Nat) (x : T) : Option (AppendVec T) :=
  if v.len ≤ i then none else some ⟨v.len, v.arr.write i x⟩

/-- `AppendVec::load` (lines 67-72): `None` when `index >= self.len()`,
otherwise `Some(arr.load_alloc(index))`. -/
def load (v : AppendVec T) (i : Nat) : Option T :=
  if v.len ≤ i then none else some (v.arr.data i)

/-- `AppendVec::alloc` (lines 78-81): `fetch_add(1)` on `len`, returning
the old value as the index (the `&mut T` half of the Rust return value is
the slot `arr.data index`, reachable through the returned state). -/
def alloc (v : AppendVec T) : Nat × AppendVec T :=
  (v.len, ⟨v.len + 1, v.arr⟩)

/-- `AppendVec::alloc_index` (lines 83-85): `fetch_add(multiple)` on
`len`, returning the old value. -/
def alloc_index (v : AppendVec T) (multiple : Nat) : Nat × AppendVec T :=
  (v.len, ⟨v.len + multiple, v.arr⟩)

/-- `AppendVec::insert` (lines 87-91): `alloc_index(1)` then write the
value through `load_alloc`. -/
def insert (v : AppendVec T) (x : T) : Nat × AppendVec T :=
  let p := v.alloc_index 1
  (p.1, ⟨p.2.len, p.2.arr.write p.1 x⟩)

/-- `AppendVec::slice_raw` (lines 105-107). -/
def slice_raw (v : AppendVec T) (start stop : Nat) : List T :=
  v.arr.slice start stop

/-- `AppendVec::slice` (lines 97-103): clip the range end to `len()` when
it exceeds it. -/
def slice (v : AppendVec T) (start stop : Nat) : List T :=
  if stop ≤ v.len then v.slice_raw start stop else v.slice_raw start v.len

/-- `AppendVec::iter` (lines 93-95): `slice_raw(0..len())`. -/
def iter (v : AppendVec T) : List T :=
  v.slice_raw 0 v.len

/-- `AppendVec::vec_capacity` (lines 117-119). -/
def vec_capacity (v : AppendVec T) : Nat :=
  v.arr.vecCap

/-- `AppendVec::settle` (lines 122-128): early return when `len() == 0`,
otherwise `arr.settle(len, additional, 1)`. -/
def settle (v : AppendVec T) (additional : Nat) : AppendVec T :=
  if v.len = 0 then v else ⟨v.len, v.arr.settle v.len additional⟩

/-- `AppendVec::clear` (lines 131-137): `take` zeroes `len`; the early
return when the old length was 0 skips `arr.clear`. -/
def clear (v : AppendVec T) (additional : Nat) : AppendVec T :=
  if v.len = 0 then ⟨0, v.arr⟩ else ⟨0, v.arr.clear v.len additional⟩

/-- `impl Index for AppendVec` (lines 139-145): `get(i).expect(…)`; the
panic is modelled as `Except.error`. -/
def indexOp (v : AppendVec T) (i : Nat) : Except String T :=
  match v.get i with
  | some x => Except.ok x
  | none => Except.error "no element found at index"

/-- `impl IndexMut for AppendVec` (lines 146-151): `get_mut(i).expect(…)`. -/
def indexMutOp (v : AppendVec T) (i : Nat) : Except String T :=
  match v.get_mut i with
  | some x => Except.ok x
  | none => Except.error "no element found at index_mut"

end AppendVec

/-- `struct Element<T>(MaybeUninit<T>)` (line 311): `none` models
uninitialized payload; `Default for Element` (lines 312-316) is
`MaybeUninit::uninit()`, i.e. `none`. -/
instance elementInhabited {T : Type} : Inhabited (Option T) := ⟨none⟩

/-- `SafeVec<T>` (lines 164-167): an `AppendVec<Element<T>>` whose `len`
field is the allocation counter, plus a separate published-length counter
`len`. -/
structure SafeVec (T : Type) where
  vec : AppendVec (Option T)
  len : Nat

namespace SafeVec

variable {T : Type}

/-- `SafeVec::with_capacity` (lines 170-176). -/
def with_capacity (c : Nat) : SafeVec T :=
  ⟨AppendVec.with_capacity c, 0⟩

/-- `SafeVec::get` (lines 187-193): bound check against the published
length, then `vec.get` and `assume_init`; an uninitialized payload reads
as `none`. -/
def get (s : SafeVec T) (i : Nat) : Option T :=
  if s.len ≤ i then none else (s.vec.get i).bind (fun e => e)

/-- `SafeVec::get_mut` (lines 199-207): same bounds as `get`, modelled
value-wise. -/
def get_mut (s : SafeVec T) (i : Nat) : Option T :=
  if s.len ≤ i then none else (s.vec.get i).bind (fun e => e)

/-- `SafeVec::load` (lines 213-217): delegates to `vec.load`, which
checks against `vec.len` (the allocation counter) only — the published
length `s.len` is never read.  The outer `Option` is the reference
(`Some` exactly when the Rust `load` returns `Some(&mut T)`); the inner
`Option T` is the possibly-uninitialized payload. -/
def load (s : SafeVec T) (i : Nat) : Option (Option T) :=
  s.vec.load i

/-- `SafeVec::insert` (lines 224-235): `vec.alloc()`, write the element,
then spin-CAS the published length from `index` to `index + 1`.
Sequential reduction: `none` when the CAS can only be unblocked by
another thread (published length ≠ allocated index). -/
def insert (s : SafeVec T) (x : T) : Option (Nat × SafeVec T) :=
  let p := s.vec.alloc
  let vec2 : AppendVec (Option T) := ⟨p.2.len, p.2.arr.write p.1 (some x)⟩
  if s.len = p.1 then some (p.1, ⟨vec2, p.1 + 1⟩) else none

/-- `SafeVec::iter` (lines 246-248): `vec.slice(0..self.len())` with the
published length as the range end. -/
def iter (s : SafeVec T) : List (Option T) :=
  s.vec.slice 0 s.len

/-- `SafeVec::slice` (lines 250-252): delegates straight to `vec.slice`,
whose clipping bound is `vec.len` (the allocation counter), not the
published length. -/
def slice (s : SafeVec T) (start stop : Nat) : List (Option T) :=
  s.vec.slice start stop

/-- `SafeVec::vec_capacity` (lines 253-255). -/
def vec_capacity (s : SafeVec T) : Nat :=
  s.vec.vec_capacity

/-- `SafeVec::settle` (lines 257-259). -/
def settle (s : SafeVec T) (additional : Nat) : SafeVec T :=
  ⟨s.vec.settle additional, s.len⟩

/-- `SafeVec::clear` (lines 262-273): `take` zeroes the published length;
early return when it was 0, otherwise drop the elements and
`vec.clear`. -/
def clear (s : SafeVec T) (additional : Nat) : SafeVec T :=
  if s.len = 0 then ⟨s.vec, 0⟩ else ⟨s.vec.clear additional, 0⟩

/-- `impl Index for SafeVec` (lines 275-281): `get(i).expect(…)`. -/
def indexOp (s : SafeVec T) (i : Nat) : Except String T :=
  match s.get i with
  | some x => Except.ok x
  | none => Except.error "no element found at index"

/-- `impl IndexMut for SafeVec` (lines 282-287): `get_mut(i).expect(…)`. -/
def indexMutOp (s : SafeVec T) (i : Nat) : Except String T :=
  match s.get_mut i with
  | some x => Except.ok x
  | none => Except.error "no element found at index_mut"

end SafeVec

/-- `Entry<'a, T>` (lines 330-334): the allocated index; the `len`
reference and the slot reference are resolved against the `SafeVec` state
the entry came from. -/
structure Entry where
  index : Nat

/-- `SafeVec::alloc_entry` (lines 237-244): `vec.alloc()` packaged as an
`Entry`; the published length is NOT advanced here. -/
def SafeVec.alloc_entry {T : Type} (s : SafeVec T) : Entry × SafeVec T :=
  let p := s.vec.alloc
  (⟨p.1⟩, ⟨p.2, s.len⟩)

/-- `Entry::index` (lines 336-338). -/
def Entry.idx (e : Entry) : Nat :=
  e.index

/-- `Entry::insert` (lines 339-341): write the value through the stored
slot reference; the published length is untouched (publication happens in
`Drop`, which runs when the consumed `self` goes out of scope). -/
def Entry.insert {T : Type} (e : Entry) (s : SafeVec T) (x : T) : SafeVec T :=
  ⟨⟨s.vec.len, s.vec.arr.write e.index (some x)⟩, s.len⟩

/-- `impl Drop for Entry` (lines 343-358): spin-CAS the published length
from `index` to `index + 1`, with no check whatsoever of the slot
contents.  Sequential reduction: `none` when the CAS can only be
unblocked by another thread. -/
def Entry.drop {T : Type} (e : Entry) (s : SafeVec T) : Option (SafeVec T) :=
  if s.len = e.index then some ⟨s.vec, e.index + 1⟩ else none

/-- Configuration of the publish protocol: the published length and the
set of allocated indices whose owner has not yet completed its publish
CAS.  (The slot writes themselves may complete in any physical order;
only the CAS completions are tracked.) -/
structure PubConfig where
  published : Nat
  pending : Finset Nat

/-- One successful `compare_exchange(published, published + 1)` by the
owner of index `published` (`SafeVec::insert` lines 227-233 / `Drop for
Entry` lines 345-356).  A CAS attempt by the owner of any other pending
index fails and leaves the state unchanged (a stutter, not modelled). -/
inductive PubStep : PubConfig → PubConfig → Prop
  | cas (c : PubConfig) (h : c.published ∈ c.pending) :
      PubStep c ⟨c.published + 1, c.pending.erase c.published⟩

/-- Reachability from the configuration where indices `0, …, N-1` have
been handed out by `vec.alloc` and none has published yet. -/
inductive PubReach (N : Nat) : PubConfig → Prop
  | init : PubReach N ⟨0, Finset.range N⟩
  | step {c c' : PubConfig} : PubReach N c → PubStep c c' → PubReach N c'

/-- Invariant of the publish protocol: the pending set is exactly the
allocated indices at or above the published length. -/
theorem pubReach_pending_eq (N : Nat) (c : PubConfig) (h : PubReach N c) :
    c.pending = (Finset.range N).filter (fun j => c.published ≤ j) := by
  induction h with
  | init =>
    ext j
    simp [Finset.mem_filter]
  | step _ hs ih =>
    cases hs with
    | cas hmem =>
      ext j
      simp only [Finset.mem_erase, ih, Finset.mem_filter, Finset.mem_range]
      omega

/-- Helper: `AppendVec::slice(start..stop)` yields exactly the slots at
indices in `[start, min(stop, len))`. -/
theorem appendVec_slice_eq {T : Type} [Inhabited T]
    (v : AppendVec T) (a b : Nat) :
    v.slice a b = (List.range' a (min b v.len - a)).map v.arr.data := by
  by_cases h : b ≤ v.len
  · simp [AppendVec.slice, AppendVec.slice_raw, Arr.slice, h, Nat.min_eq_left h]
  · have h2 : v.len ≤ b := Nat.le_of_not_le h
    simp [AppendVec.slice, AppendVec.slice_raw, Arr.slice, h, Nat.min_eq_right h2]

/-- C1: the published length of `SafeVec` advances only by successful
`compare_exchange` steps from `published` to `published + 1`, taken by the
owner of the pending index equal to the current published length; hence in
every reachable configuration of the publish protocol, a slot `k` that is
visible to length-bounded readers (`k < published`) has every slot `j ≤ k`
already published (`j` no longer pending and `j < published`), regardless
of the order in which the owners attempted their CAS. -/
theorem publish_in_order :
    (∀ c c' : PubConfig, PubStep c c' →
      c'.published = c.published + 1 ∧ c.published ∈ c.pending) ∧
    (∀ (N : Nat) (c : PubConfig), PubReach N c →
      ∀ k, k < c.published → ∀ j, j ≤ k → j ∉ c.pending ∧ j < c.published) := by
  constructor
  · intro c c' h
    cases h with
    | cas hmem => exact ⟨rfl, hmem⟩
  · intro N c h k hk j hjk
    refine ⟨fun hmem => ?_, by omega⟩
    rw [pubReach_pending_eq N c h] at hmem
    simp only [Finset.mem_filter, Finset.mem_range] at hmem
    omega

/-- Witness for C1: with two allocated indices, the owner of index 0
publishes; the step increments the published length to 1 and afterwards
slot 0 is no longer pending. -/
theorem publish_in_order_witness :
    PubStep ⟨0, Finset.range 2⟩ ⟨0 + 1, (Finset.range 2).erase 0⟩ ∧
    PubReach 2 ⟨0 + 1, (Finset.range 2).erase 0⟩ ∧
    ((0 : Nat) ∉ ((Finset.range 2).erase 0) ∧ (0 : Nat) < 0 + 1) := by
  have hstep : PubStep ⟨0, Finset.range 2⟩ ⟨0 + 1, (Finset.range 2).erase 0⟩ :=
    PubStep.cas ⟨0, Finset.range 2⟩ (by decide)
  have hreach : PubReach 2 ⟨0 + 1, (Finset.range 2).erase 0⟩ :=
    PubReach.step PubReach.init hstep
  exact ⟨hstep, hreach,
    publish_in_order.2 2 _ hreach 0 (by decide) 0 (by decide)⟩

/-- C2: dropping an `Entry` obtained from `alloc_entry` performs the
spin-CAS publish advance from its index `k` to `k + 1` unconditionally:
both without any call to `Entry::insert` and after one, the drop succeeds
(once the published length has reached `k`) and leaves the published
length at `k + 1`. -/
theorem entry_drop_publishes_unconditionally {T : Type} [Inhabited T]
    (s : SafeVec T) (x : T) (h : s.len = s.vec.len) :
    Entry.drop (s.alloc_entry).1 (s.alloc_entry).2
      = some ⟨(s.alloc_entry).2.vec, (s.alloc_entry).1.index + 1⟩ ∧
    Entry.drop (s.alloc_entry).1
        (Entry.insert (s.alloc_entry).1 (s.alloc_entry).2 x)
      = some ⟨(Entry.insert (s.alloc_entry).1 (s.alloc_entry).2 x).vec,
          (s.alloc_entry).1.index + 1⟩ ∧
    (s.alloc_entry).1.index = s.vec.len := by
  simp [SafeVec.alloc_entry, Entry.drop, Entry.insert, AppendVec.alloc, h]

/-- Witness for C2: on a fresh `SafeVec`, dropping the unwritten entry of
index 0 advances the published length to 1. -/
theorem entry_drop_publishes_unconditionally_witness :
    (SafeVec.with_capacity 3 : SafeVec Nat).len
        = (SafeVec.with_capacity 3 : SafeVec Nat).vec.len ∧
    Option.map (fun t => t.len)
        (Entry.drop ((SafeVec.with_capacity 3 : SafeVec Nat).alloc_entry).1
          ((SafeVec.with_capacity 3 : SafeVec Nat).alloc_entry).2)
      = some 1 := by
  have h := entry_drop_publishes_unconditionally
    (SafeVec.with_capacity 3 : SafeVec Nat) 7 rfl
  refine ⟨rfl, ?_⟩
  rw [h.1]
  rfl

/-- C3: `AppendVec::insert` returns the pre-increment value of the `len`
counter as the index, and the state it returns already has
`len = index + 1`: there is no publish lag between the fetch-add and what
`len()` reads. -/
theorem appendVec_insert_immediate_len {T : Type} [Inhabited T]
    (v : AppendVec T) (x : T) :
    (v.insert x).1 = v.len ∧
    ((v.insert x).2).len = (v.insert x).1 + 1 := by
  exact ⟨rfl, rfl⟩

/-- Counterexample to C4: on an `AppendVec` with `len() == 0`, `settle`
returns early, so after `settle(5)` the primary capacity is 0, strictly
below `len() + 5`. -/
theorem settle_len_zero_cex :
    ((AppendVec.with_capacity 0 : AppendVec Nat).settle 5).vec_capacity <
      ((AppendVec.with_capacity 0 : AppendVec Nat).settle 5).len + 5 := by
  decide

/-- C4 (amended): after `settle(additional)` the primary capacity is at
least `len() + additional` provided `len() > 0`; the primary capacity
never decreases across `settle`, and `settle` leaves `len()` unchanged.
When `len() == 0`, `settle` is a no-op. -/
theorem settle_capacity_amended {T : Type} [Inhabited T]
    (v : AppendVec T) (additional : Nat) :
    (0 < v.len → v.len + additional ≤ (v.settle additional).vec_capacity) ∧
    v.vec_capacity ≤ (v.settle additional).vec_capacity ∧
    (v.settle additional).len = v.len := by
  by_cases h : v.len = 0
  · simp [AppendVec.settle, AppendVec.vec_capacity, h]
  · have hs : v.settle additional = ⟨v.len, v.arr.settle v.len additional⟩ :=
      by simp [AppendVec.settle, h]
    rw [hs]
    exact ⟨fun _ => Nat.le_max_right _ _, Nat.le_max_left _ _, rfl⟩

/-- Witness for C4 (amended): a one-element vector settled with
`additional = 3` reaches primary capacity at least `1 + 3`. -/
theorem settle_capacity_amended_witness :
    0 < ((AppendVec.with_capacity 0 : AppendVec Nat).insert 7).2.len ∧
    ((AppendVec.with_capacity 0 : AppendVec Nat).insert 7).2.len + 3 ≤
      ((((AppendVec.with_capacity 0 : AppendVec Nat).insert 7).2).settle
        3).vec_capacity := by
  exact ⟨by decide, (settle_capacity_amended _ 3).1 (by decide)⟩

/-- C5: in any state, immediately after `clear(k)` the length is 0, and a
subsequent `insert(v)` returns index 0 with `get(0) == Some(v)`
afterwards. -/
theorem clear_then_insert {T : Type} [Inhabited T]
    (v : AppendVec T) (k : Nat) (x : T) :
    (v.clear k).len = 0 ∧ ((v.clear k).insert x).1 = 0 ∧
      (((v.clear k).insert x).2).get 0 = some x := by
  by_cases h : v.len = 0 <;>
    simp [AppendVec.clear, h, AppendVec.insert, AppendVec.alloc_index,
      AppendVec.get, Arr.get, Arr.write]

/-- Counterexample to C6: on a fresh `AppendVec` (length 0),
`load(0)` returns `None` — `AppendVec::load` checks `index >= self.len()`
and returns an empty result for any index at or beyond the length. -/
theorem load_len_bound_cex :
    (AppendVec.with_capacity 4 : AppendVec Nat).load 0 = none := by
  decide

/-- C6 (amended): `AppendVec::load(i)` returns `None` whenever
`i ≥ len()`.  `SafeVec::load(i)` never reads the published length — its
result is unchanged under any published length `p` — and returns a
writable reference (`Some`) for every `i` below the underlying allocation
counter `vec.len`, allocating storage on demand; it returns `None` only
for `i` at or beyond the allocation counter. -/
theorem load_amended {T : Type} [Inhabited T]
    (v : AppendVec T) (s : SafeVec T) (i j p : Nat)
    (hv : v.len ≤ i) (hj : j < s.vec.len) :
    v.load i = none ∧
    (SafeVec.load ⟨s.vec, p⟩ j).isSome = true ∧
    SafeVec.load ⟨s.vec, p⟩ j = SafeVec.load s j ∧
    (∀ q, s.vec.len ≤ q → SafeVec.load s q = none) := by
  refine ⟨?_, ?_, rfl, ?_⟩
  · simp [AppendVec.load, hv]
  · simp [SafeVec.load, AppendVec.load, Nat.not_le.mpr hj]
  · intro q hq
    simp [SafeVec.load, AppendVec.load, hq]

/-- Witness for C6 (amended): a fresh `AppendVec` rejects `load(0)`,
while a `SafeVec` holding one unpublished allocated slot serves `load(0)`
even with the published length field set to 99. -/
theorem load_amended_witness :
    (AppendVec.with_capacity 1 : AppendVec Nat).len ≤ 0 ∧
    0 < ((SafeVec.with_capacity 1 : SafeVec Nat).alloc_entry).2.vec.len ∧
    (AppendVec.with_capacity 1 : AppendVec Nat).load 0 = none ∧
    (SafeVec.load
        ⟨((SafeVec.with_capacity 1 : SafeVec Nat).alloc_entry).2.vec, 99⟩
        0).isSome = true := by
  have h := load_amended (AppendVec.with_capacity 1 : AppendVec Nat)
    ((SafeVec.with_capacity 1 : SafeVec Nat).alloc_entry).2 0 0 99
    (by decide) (by decide)
  exact ⟨by decide, by decide, h.1, h.2.1⟩

/-- Counterexample to C7: on a `SafeVec` with one allocated but
unpublished slot (published length 0), `slice(0..1)` yields one element —
an index at or beyond the published length at call time, because
`SafeVec::slice` clips against the underlying allocation counter instead
of the published length. -/
theorem safeVec_slice_published_cex :
    ((((SafeVec.with_capacity 4 : SafeVec Nat).alloc_entry).2).slice 0
        1).length = 1 ∧
    (((SafeVec.with_capacity 4 : SafeVec Nat).alloc_entry).2).len = 0 := by
  decide

/-- C7 (amended): `AppendVec::slice(start..stop)` yields exactly the
slots at indices `[start, min(stop, len))` and `iter()` those at
`[0, len)`.  `SafeVec::iter()` yields the slots at `[0, published len)`
(when the published length does not exceed the allocation counter), but
`SafeVec::slice(start..stop)` clips against the allocation counter
`vec.len`, not the published length, and so may yield unpublished
indices. -/
theorem slice_bounds_amended {T : Type} [Inhabited T]
    (v : AppendVec T) (s : SafeVec T) (a b : Nat)
    (h : s.len ≤ s.vec.len) :
    v.slice a b = (List.range' a (min b v.len - a)).map v.arr.data ∧
    v.iter = (List.range' 0 v.len).map v.arr.data ∧
    s.iter = (List.range' 0 s.len).map s.vec.arr.data ∧
    s.slice a b
      = (List.range' a (min b s.vec.len - a)).map s.vec.arr.data := by
  refine ⟨appendVec_slice_eq v a b, ?_, ?_, appendVec_slice_eq s.vec a b⟩
  · simp [AppendVec.iter, AppendVec.slice_raw, Arr.slice]
  · show s.vec.slice 0 s.len = _
    rw [appendVec_slice_eq, Nat.min_eq_left h, Nat.sub_zero]

/-- Witness for C7 (amended): a one-element `AppendVec` sliced with
`stop = 7` yields exactly the single live slot. -/
theorem slice_bounds_amended_witness :
    (SafeVec.with_capacity 2 : SafeVec Nat).len ≤
      (SafeVec.with_capacity 2 : SafeVec Nat).vec.len ∧
    ((AppendVec.with_capacity 0 : AppendVec Nat).insert 5).2.slice 0 7
      = (List.range' 0
          (min 7 ((AppendVec.with_capacity 0 : AppendVec Nat).insert
            5).2.len - 0)).map
          ((AppendVec.with_capacity 0 : AppendVec Nat).insert 5).2.arr.data
    := by
  exact ⟨by decide,
    (slice_bounds_amended ((AppendVec.with_capacity 0 : AppendVec Nat).insert
        5).2 (SafeVec.with_capacity 2 : SafeVec Nat) 0 7 (by decide)).1⟩

/-- C8: for any index at or beyond the length, the checked accessors
`get`/`get_mut` of both `AppendVec` and `SafeVec` return `None`, while
the `Index`/`IndexMut` operators panic (modelled as `Except.error`) on
the same index. -/
theorem oob_access {T : Type} [Inhabited T]
    (v : AppendVec T) (s : SafeVec T) (i j : Nat)
    (hv : v.len ≤ i) (hs : s.len ≤ j) :
    v.get i = none ∧ v.get_mut i = none ∧
    v.indexOp i = Except.error "no element found at index" ∧
    v.indexMutOp i = Except.error "no element found at index_mut" ∧
    s.get j = none ∧ s.get_mut j = none ∧
    s.indexOp j = Except.error "no element found at index" ∧
    s.indexMutOp j = Except.error "no element found at index_mut" := by
  have h1 : v.get i = none := by simp [AppendVec.get, hv]
  have h2 : v.get_mut i = none := by simp [AppendVec.get_mut, hv]
  have h3 : s.get j = none := by simp [SafeVec.get, hs]
  have h4 : s.get_mut j = none := by simp [SafeVec.get_mut, hs]
  refine ⟨h1, h2, ?_, ?_, h3, h4, ?_, ?_⟩ <;>
    simp [AppendVec.indexOp, AppendVec.indexMutOp, SafeVec.indexOp,
      SafeVec.indexMutOp, h1, h2, h3, h4]

/-- Witness for C8: index 0 on fresh (empty) structures. -/
theorem oob_access_witness :
    (AppendVec.with_capacity 2 : AppendVec Nat).len ≤ 0 ∧
    (SafeVec.with_capacity 2 : SafeVec Nat).len ≤ 0 ∧
    (AppendVec.with_capacity 2 : AppendVec Nat).get 0 = none ∧
    (SafeVec.with_capacity 2 : SafeVec Nat).get 0 = none := by
  have h := oob_access (AppendVec.with_capacity 2 : AppendVec Nat)
      (SafeVec.with_capacity 2 : SafeVec Nat) 0 0 (by decide) (by decide)
  exact ⟨by decide, by decide, h.1, h.2.2.2.2.1⟩

/-- C9: Scenario A — `with_capacity(4)`, insert "Good day" at 0, "Hello"
at 1, `len() == 2`, "Hello" at 2 with `get(2) == Some("Hello")`;
overwriting slot 2 with "Hello1" through `get_mut` gives
`get(2) == Some("Hello1")` with `len()` still 3. -/
theorem scenario_a :
    let v0 : AppendVec String := AppendVec.with_capacity 4
    let r1 := v0.insert "Good day"
    let r2 := r1.2.insert "Hello"
    let r3 := r2.2.insert "Hello"
    let o4 := r3.2.set_mut 2 "Hello1"
    let v4 := o4.getD (AppendVec.with_capacity 0)
    r1.1 = 0 ∧ r2.1 = 1 ∧ r2.2.len = 2 ∧ r3.1 = 2 ∧
    r3.2.get 2 = some "Hello" ∧ o4.isSome = true ∧
    v4.get 2 = some "Hello1" ∧ v4.len = 3 := by
  exact ⟨rfl, rfl, rfl, rfl, rfl, rfl, rfl, rfl⟩

/-- C10: `AppendVec::alloc` and `alloc_index` advance the very `len`
field that `len()` reads — the returned index is the old `len`, the new
`len` is `index + 1` (resp. `len + m`), so `len ≥ index + 1` immediately;
the backing array is untouched by allocation, and on a fresh vector the
slot at the allocated index still holds the `Default` sentinel even
though the index is already below `len`. -/
theorem alloc_len_same_counter {T : Type} [Inhabited T]
    (v : AppendVec T) (m c : Nat) :
    (v.alloc).1 = v.len ∧
    ((v.alloc).2).len = (v.alloc).1 + 1 ∧
    (v.alloc).1 < ((v.alloc).2).len ∧
    ((v.alloc).2).arr = v.arr ∧
    (v.alloc_index m).1 = v.len ∧
    ((v.alloc_index m).2).len = v.len + m ∧
    ((AppendVec.with_capacity c : AppendVec T).alloc).2.arr.data
        ((AppendVec.with_capacity c : AppendVec T).alloc).1 = default := by
  exact ⟨rfl, rfl, Nat.lt_succ_self _, rfl, rfl, rfl, rfl⟩
